import Mathlib

/-
  Verification of QCompressPDF (src/compress_qt.py) against its
  natural-language specification.

  Shallow embedding of the three core pieces named by the claims:
    - `CompressThread.parse_progress_line` (the regex ladder over Ghostscript
      output lines, here `matchPatterns` / `classify` / `parse_progress_line`),
    - `CompressThread.run` (the job lifecycle, here `runTrace` / `runTeardown`),
    - `PreviewDialog.split_pdf` (the size-bounded splitter, here
      `addPagesLoop` / `splitLoop` / `split_pdf`).

  Numeric conventions: file sizes are modelled in bytes as `Nat`.  The source
  compares `size / 1024 / 1024` (Python float division of an integer byte
  count by the power of two 1048576, which is exact in IEEE double for any
  realistic size) against the literals 4.5 and 5, so the comparisons are
  equivalent to the exact integer comparisons `size < 4718592` (4.5 MB) and
  `5242880 < size` (5 MB) used here.
-/

/-! ### Character-level helpers for the regex ladder

The source applies `re.search(pattern, line, re.IGNORECASE)` to each line.
Case-insensitivity is modelled by lower-casing the line (ASCII, which is what
Ghostscript emits) and writing the pattern literals in lower case.  Python's
character class `\s` is modelled by `isPySpace`, `\d` by `Char.isDigit`. -/

def lowerChar (c : Char) : Char :=
  if c.isUpper then Char.ofNat (c.toNat + 32) else c

def isPySpace (c : Char) : Bool :=
  c = ' ' || c = '\t' || c = '\n' || c = '\r' || c.toNat = 11 || c.toNat = 12

/-- Match a literal pattern (already lower-cased) against the head of a
lower-cased suffix; return the remainder on success. -/
def stripLit : List Char → List Char → Option (List Char)
  | [], s => some s
  | _ :: _, [] => none
  | p :: ps, c :: cs => if c = p then stripLit ps cs else none

/-- Maximal digit prefix and the remainder: the exact semantics of a greedy
`\d+` or `(\d+)` whose continuation is not a digit. -/
def takeDigits : List Char → List Char × List Char
  | [] => ([], [])
  | c :: cs =>
      if c.isDigit then
        let r := takeDigits cs
        (c :: r.1, r.2)
      else ([], c :: cs)

def digitsVal (ds : List Char) : Nat :=
  ds.foldl (fun a c => 10 * a + (c.toNat - 48)) 0

/-- Leftmost-position search: `re.search` tries every start position from the
left and keeps the first one at which the pattern matches. -/
def searchAt (f : List Char → Option Nat) : List Char → Option Nat
  | [] => f []
  | c :: cs =>
      match f (c :: cs) with
      | some n => some n
      | none => searchAt f cs

/-- Rightmost-position search: for patterns beginning with a greedy `.*`,
`re.search` matches at position 0 with `.*` consuming as much as possible,
i.e. the continuation is matched at the rightmost possible start. -/
def searchRight (f : List Char → Option Nat) : List Char → Option Nat
  | [] => f []
  | c :: cs =>
      match searchRight f cs with
      | some n => some n
      | none => f (c :: cs)

/-! ### The eight patterns of `parse_progress_line` (src lines 309-321)

Each `matchPNAt` decides whether pattern N matches at the start of the given
(lower-cased) suffix and returns the value of capture group 1.  Greedy `\d+`
followed by a non-digit literal, and greedy `\s+`/`\s*` followed by a
non-space literal, match maximally with no observable backtracking, which is
what the definitions below implement. -/

def patProcessingPages : List Char := "processing pages ".data

def patThrough : List Char := " through ".data

def patPageSpace : List Char := "page ".data

def patPercentPage : List Char := "%%page:".data

def patShowpage : List Char := "showpage,".data

def patPage : List Char := "page".data

def patProcessing : List Char := "processing".data

/-- Pattern 1: `Processing pages \d+ through (\d+)`. -/
def matchP1At (s : List Char) : Option Nat :=
  match stripLit patProcessingPages s with
  | none => none
  | some s1 =>
      let r1 := takeDigits s1
      if r1.1 = [] then none
      else
        match stripLit patThrough r1.2 with
        | none => none
        | some s2 =>
            let r2 := takeDigits s2
            if r2.1 = [] then none else some (digitsVal r2.1)

/-- Pattern 2: `Page (\d+)` (case-insensitive, so identical to pattern 3). -/
def matchP2At (s : List Char) : Option Nat :=
  match stripLit patPageSpace s with
  | none => none
  | some s1 =>
      let r := takeDigits s1
      if r.1 = [] then none else some (digitsVal r.1)

/-- Pattern 3: `page (\d+)`; under `re.IGNORECASE` this is the same function
as pattern 2, kept separate to mirror the source's pattern list. -/
def matchP3At (s : List Char) : Option Nat :=
  matchP2At s

/-- Pattern 4: `%%Page:\s*(\d+)`. -/
def matchP4At (s : List Char) : Option Nat :=
  match stripLit patPercentPage s with
  | none => none
  | some s1 =>
      let r := takeDigits (s1.dropWhile isPySpace)
      if r.1 = [] then none else some (digitsVal r.1)

/-- Pattern 5: `showpage,\s*page\s+(\d+)`. -/
def matchP5At (s : List Char) : Option Nat :=
  match stripLit patShowpage s with
  | none => none
  | some s1 =>
      match stripLit patPage (s1.dropWhile isPySpace) with
      | none => none
      | some s2 =>
          if s2.takeWhile isPySpace = [] then none
          else
            let r := takeDigits (s2.dropWhile isPySpace)
            if r.1 = [] then none else some (digitsVal r.1)

/-- Pattern 6: `.*page\s+(\d+)` (continuation after the greedy `.*`). -/
def matchP6At (s : List Char) : Option Nat :=
  match stripLit patPage s with
  | none => none
  | some s1 =>
      if s1.takeWhile isPySpace = [] then none
      else
        let r := takeDigits (s1.dropWhile isPySpace)
        if r.1 = [] then none else some (digitsVal r.1)

/-- Pattern 7: `.*Page\s+(\d+)\s+.*` (continuation after the greedy `.*`). -/
def matchP7At (s : List Char) : Option Nat :=
  match stripLit patPage s with
  | none => none
  | some s1 =>
      if s1.takeWhile isPySpace = [] then none
      else
        let r := takeDigits (s1.dropWhile isPySpace)
        if r.1 = [] then none
        else
          match r.2 with
          | [] => none
          | c :: _ => if isPySpace c then some (digitsVal r.1) else none

/-- Pattern 8: `.*processing\s+page\s+(\d+)` (continuation after `.*`). -/
def matchP8At (s : List Char) : Option Nat :=
  match stripLit patProcessing s with
  | none => none
  | some s1 =>
      if s1.takeWhile isPySpace = [] then none
      else
        match stripLit patPage (s1.dropWhile isPySpace) with
        | none => none
        | some s2 =>
            if s2.takeWhile isPySpace = [] then none
            else
              let r := takeDigits (s2.dropWhile isPySpace)
              if r.1 = [] then none else some (digitsVal r.1)

/-- Raw outcome of the pattern ladder: which kind of pattern fired first and
the captured number.  Only pattern 1 contains the substring `through`, so the
source's check `"through" in pattern.lower()` sends exactly pattern-1 matches
to the total-pages branch. -/
inductive RawSignal where
  | totalPages (n : Nat)
  | pageNum (n : Nat)
  | noSignal
deriving DecidableEq

/-- The ordered regex ladder of `parse_progress_line` (src lines 309-331):
patterns are tried in order and the first match wins.  Patterns 1-5 have no
leading `.*` and use leftmost search; patterns 6-8 start with a greedy `.*`
and therefore match the rightmost occurrence of their continuation. -/
def matchPatterns (line : String) : RawSignal :=
  let s := line.data.map lowerChar
  match searchAt matchP1At s with
  | some n => .totalPages n
  | none =>
  match searchAt matchP2At s with
  | some n => .pageNum n
  | none =>
  match searchAt matchP3At s with
  | some n => .pageNum n
  | none =>
  match searchAt matchP4At s with
  | some n => .pageNum n
  | none =>
  match searchAt matchP5At s with
  | some n => .pageNum n
  | none =>
  match searchRight matchP6At s with
  | some n => .pageNum n
  | none =>
  match searchRight matchP7At s with
  | some n => .pageNum n
  | none =>
  match searchRight matchP8At s with
  | some n => .pageNum n
  | none => .noSignal

/-- The spec-level classifier result type (`ProgressParser.classify`). -/
inductive Signal where
  | TotalPages (n : Nat)
  | CurrentPage (n : Nat)
  | NoSignal
deriving DecidableEq

/-- `ProgressParser.classify`: the pure fragment of `parse_progress_line`
(src lines 323-337) — the pattern ladder plus the clamp
`min(page_num, total) if total > 0 else page_num` for current-page matches. -/
def classify (line : String) (knownTotal : Nat) : Signal :=
  match matchPatterns line with
  | .totalPages n => .TotalPages n
  | .pageNum n => .CurrentPage (if 0 < knownTotal then min n knownTotal else n)
  | .noSignal => .NoSignal

/-! ### `CompressThread` progress state and line handling -/

/-- The mutable progress state of a `CompressThread`: `self.total_pages` and
`self.current_page`. -/
structure JobState where
  total_pages : Nat
  current_page : Nat
deriving DecidableEq

/-- `CompressThread.parse_progress_line` (src lines 305-345) as a state
transition: returns the updated state and the list of `progress.emit`
arguments `(current_page, total_pages)` issued while handling the line.
A total-pages match is accepted only when strictly larger than the known
total and re-emits `(0, total)`; a current-page match clamps to the known
total and emits only when a total is known. -/
def parse_progress_line (st : JobState) (line : String) :
    JobState × List (Nat × Nat) :=
  match matchPatterns line with
  | .totalPages n =>
      if st.total_pages < n then ({ st with total_pages := n }, [(0, n)])
      else (st, [])
  | .pageNum n =>
      let cur := if 0 < st.total_pages then min n st.total_pages else n
      ({ st with current_page := cur },
        if 0 < st.total_pages then [(cur, st.total_pages)] else [])
  | .noSignal => (st, [])

/-- The read loop of `CompressThread.run` (src lines 247-254): each output
line is fed to `parse_progress_line`; emissions accumulate in order. -/
def processLines (st : JobState) : List String → JobState × List (Nat × Nat)
  | [] => (st, [])
  | l :: ls =>
      let r1 := parse_progress_line st l
      let r2 := processLines r1.1 ls
      (r2.1, r1.2 ++ r2.2)

/-! ### The `CompressThread.run` lifecycle -/

/-- Terminal outcome of one job run, mirroring the distinct exception paths
of `CompressThread.run` (the source surfaces each as `finished.emit(False,
detail)` with a human-readable message; constructors record which path and
what it carries):
  - `failedExit code`: `CalledProcessError`, message carries the return code;
  - `failedMissing`: the output file was not created;
  - `failedEmpty`: the output file has size zero;
  - `failedStaging`: `shutil.copy2` of the input raised;
  - `failedLaunch`: `subprocess.Popen` raised;
  - `failedRead`: an exception while reading the output stream. -/
inductive JobResult where
  | success
  | failedExit (code : Int)
  | failedMissing
  | failedEmpty
  | failedStaging
  | failedLaunch
  | failedRead
deriving DecidableEq

/-- One element of the signal stream a run emits: a `progress` signal
`(current_page, total_pages)` or the terminal `finished` signal. -/
inductive Event where
  | progress (current total : Nat)
  | finished (r : JobResult)
deriving DecidableEq

/-- The environment one `CompressThread.run` executes against: everything the
external world decides.  `pageCount` is `get_pdf_page_count(in_file)` (0 on
any parse failure), `stageOk` whether `shutil.copy2` succeeds, `launchOk`
whether `Popen` succeeds, `lines` the combined stdout/stderr lines,
`readFailsAt = some i` that reading raises after `i` lines were consumed
(e.g. a decode error), `exitCode`/`outExists`/`outSize` the process exit
status and output-file state, and `termRaises`/`removeRaises` whether the
two cleanup actions in the `finally` block raise. -/
structure RunEnv where
  pageCount : Nat
  stageOk : Bool
  launchOk : Bool
  lines : List String
  readFailsAt : Option Nat
  exitCode : Int
  outExists : Bool
  outSize : Nat
  termRaises : Bool
  removeRaises : Bool
deriving DecidableEq

/-- The lines actually consumed before a read failure (all of them when
reading does not fail). -/
def readLines (env : RunEnv) : List String :=
  match env.readFailsAt with
  | none => env.lines
  | some i => env.lines.take i

def readFails (env : RunEnv) : Bool :=
  env.readFailsAt.isSome

/-- The progress state after the read loop. -/
def finalState (env : RunEnv) : JobState :=
  (processLines { total_pages := env.pageCount, current_page := 0 } (readLines env)).1

def finalTotal (env : RunEnv) : Nat :=
  (finalState env).total_pages

/-- The initial `progress.emit(0, total_pages)` (src lines 190-191), guarded
by `total_pages > 0`; it precedes staging. -/
def initEventsOf (env : RunEnv) : List Event :=
  if 0 < env.pageCount then [Event.progress 0 env.pageCount] else []

/-- The progress signals emitted while consuming the output stream. -/
def lineEventsOf (env : RunEnv) : List Event :=
  (processLines { total_pages := env.pageCount, current_page := 0 }
    (readLines env)).2.map fun p => Event.progress p.1 p.2

/-- All progress signals emitted up to the end of the read loop. -/
def peventsOf (env : RunEnv) : List Event :=
  initEventsOf env ++ lineEventsOf env

/-- The final `progress.emit(total_pages, total_pages)` of the success path
(src lines 272-273), guarded by `total_pages > 0`. -/
def finalEventsOf (env : RunEnv) : List Event :=
  if 0 < finalTotal env then
    [Event.progress (finalTotal env) (finalTotal env)]
  else []

/-- The event stream of `CompressThread.run` (src lines 184-286), in emission
order.  After the read loop the source checks, in order, the return code,
output-file existence, and output-file size, and on success re-emits
`(total_pages, total_pages)` when a total is known before `finished`. -/
def runTrace (env : RunEnv) : List Event :=
  if env.stageOk then
    if env.launchOk then
      if readFails env then peventsOf env ++ [Event.finished .failedRead]
      else if env.exitCode ≠ 0 then
        peventsOf env ++ [Event.finished (.failedExit env.exitCode)]
      else if env.outExists = false then
        peventsOf env ++ [Event.finished .failedMissing]
      else if env.outSize = 0 then peventsOf env ++ [Event.finished .failedEmpty]
      else peventsOf env ++ (finalEventsOf env ++ [Event.finished .success])
    else initEventsOf env ++ [Event.finished .failedLaunch]
  else initEventsOf env ++ [Event.finished .failedStaging]

/-- Record of the cleanup actions of the `finally` block (src lines 288-303):
whether `process.terminate()` was invoked (process launched and still alive),
whether the bounded `wait` after it completed without raising, whether
removal of the staged temp input was attempted (it exists iff staging
succeeded), and whether it succeeded. -/
structure Teardown where
  procTerminated : Bool
  termClean : Bool
  tempRemoveTried : Bool
  tempRemoved : Bool
deriving DecidableEq

def teardownFor (launched alive : Bool) (env : RunEnv) : Teardown :=
  { procTerminated := launched && alive
    termClean := launched && alive && !env.termRaises
    tempRemoveTried := env.stageOk
    tempRemoved := env.stageOk && !env.removeRaises }

/-- The `finally` block of `CompressThread.run`: it runs on every exit path.
The process is still alive at teardown exactly when it was launched and an
exception escaped the read loop (on every other path `poll()` has already
returned); the staged temp input exists exactly when staging succeeded. -/
def runTeardown (env : RunEnv) : Teardown :=
  if env.stageOk then
    if env.launchOk then teardownFor true (readFails env) env
    else teardownFor false false env
  else teardownFor false false env

structure RunOutput where
  trace : List Event
  teardown : Teardown
deriving DecidableEq

/-- `CompressThread.run`: the emitted signal stream plus the cleanup record. -/
def run (env : RunEnv) : RunOutput :=
  { trace := runTrace env, teardown := runTeardown env }

def isProgress : Event → Bool
  | .progress _ _ => true
  | .finished _ => false

/-! ### `PreviewDialog.split_pdf` — the size-bounded splitter

Pages are modelled by their 0-based indices `0 .. total_pages - 1`; a part is
the list of page indices its `PdfWriter` holds plus the byte size of the file
that writer serializes to.  The serialized size of a page set is supplied by
an oracle `sz : List Nat → Nat` (the document's content determines it; the
splitter only ever observes it through `os.path.getsize` on a written part).

The dialog-driven pieces of `split_pdf` are presentation and excluded by the
spec (src lines 532-543: the under-5MB confirmation; lines 594-616: the
overwrite prompts): the model covers the splitting algorithm itself, src
lines 546-620. -/

/-- One emitted part: the page indices written to it and its serialized byte
size at the moment it was written. -/
structure SplitPart where
  pages : List Nat
  byteSize : Nat
deriving DecidableEq

/-- The inner accumulation loop (src lines 562-569):

    part_size = 0
    page_count = 0
    while current_part < total_pages and (part_size / 1024 / 1024 < 4.5 or page_count == 0):
        part_writer.add_page(reader.pages[current_part]); current_part += 1; page_count += 1

`part_size` is never assigned inside the loop (it stays 0), which the model
reproduces by threading it unchanged.  The loop body increases `current_part`
by one each iteration, so running it with `fuel = total_pages - current_part`
is exact: fuel reaches 0 only when `current_part = total_pages`, where the
loop condition is false anyway.  Returns (pages added, current_part,
page_count). -/
def addPagesLoop (total_pages : Nat) :
    Nat → Nat → Nat → Nat → List Nat → List Nat × Nat × Nat
  | 0, current_part, _, page_count, pages => (pages, current_part, page_count)
  | fuel + 1, current_part, part_size, page_count, pages =>
      if current_part < total_pages ∧ (part_size < 4718592 ∨ page_count = 0) then
        addPagesLoop total_pages fuel (current_part + 1) part_size
          (page_count + 1) (pages ++ [current_part])
      else (pages, current_part, page_count)

/-- The outer `while current_part < total_pages` loop of `split_pdf` (src
lines 560-620), with explicit fuel because the source loop need not
terminate: each iteration accumulates pages, serializes them, and if the
written file exceeds 5 MB while holding more than one page, rebuilds the
writer without the last page (`for i in range(current_part - page_count + 1,
current_part)` after `current_part -= 1`), resets
`current_part = current_part - page_count + 1`, reserializes, and then moves
the written file to its output name unconditionally.  The cursor arithmetic
is done in `Int` as in Python and converted back.  Returns the parts emitted
so far and whether the loop exited normally (`false` means the fuel ran out
with the loop still running). -/
def splitLoop (sz : List Nat → Nat) (total_pages : Nat) :
    Nat → Nat → List SplitPart → List SplitPart × Bool
  | 0, _, acc => (acc, false)
  | fuel + 1, current_part, acc =>
      if current_part < total_pages then
        let r := addPagesLoop total_pages (total_pages - current_part)
          current_part 0 0 []
        let pages := r.1
        let cur1 := r.2.1
        let page_count := r.2.2
        let actual_size := sz pages
        if 5242880 < actual_size ∧ 1 < page_count then
          let cur2 := cur1 - 1
          let start := ((cur2 : Int) - (page_count : Int) + 1).toNat
          let pages2 := List.range' start (cur2 - start)
          splitLoop sz total_pages fuel start (acc ++ [⟨pages2, sz pages2⟩])
        else
          splitLoop sz total_pages fuel cur1 (acc ++ [⟨pages, actual_size⟩])
      else (acc, true)

/-- Result of a split: the fewer-than-2-pages refusal (src lines 550-554,
surfaced as a warning and an immediate return with no file written), or the
parts emitted by the loop together with the normal-exit flag. -/
inductive SplitResult where
  | insufficientPages
  | parts (ps : List SplitPart) (completed : Bool)
deriving DecidableEq

/-- `PreviewDialog.split_pdf` on a document with `total_pages` pages whose
serialization oracle is `sz`. -/
def split_pdf (sz : List Nat → Nat) (total_pages fuel : Nat) : SplitResult :=
  if total_pages < 2 then .insufficientPages
  else
    let r := splitLoop sz total_pages fuel 0 []
    .parts r.1 r.2

/-- The multiset of page indices covered by a list of parts, in order. -/
def coveredPages (ps : List SplitPart) : List Nat :=
  ps.foldr (fun p acc => p.pages ++ acc) []

/-! ### Spec-side reading of rule 2 for claim C4

The spec describes rule 2 as matching `"Page N"` case-insensitively **at word
boundaries**.  The source pattern `Page (\d+)` has no word-boundary anchor:
it matches as a plain substring, e.g. inside `rampage`.  To compare the two
readings, `classifyWB` below follows the spec's words: rule 1 as in the
source, then rule 2 accepting only occurrences of `page` not preceded by a
word character (the boundary after `page` is automatic, a space follows). -/

def isWordChar (c : Char) : Bool :=
  c.isAlphanum || c = '_'

def boundaryOk : Option Char → Bool
  | none => true
  | some c => !isWordChar c

/-- Leftmost search accepting a match only at a word boundary (tracking the
previous character). -/
def searchAtWB (f : List Char → Option Nat) :
    Option Char → List Char → Option Nat
  | prev, [] => if boundaryOk prev then f [] else none
  | prev, c :: cs =>
      match (if boundaryOk prev then f (c :: cs) else none) with
      | some n => some n
      | none => searchAtWB f (some c) cs

/-- The claim's reading of the classifier: rule 1 as in the source, rule 2
with a word boundary.  (Lower-priority families are irrelevant at the input
used to separate the two readings.) -/
def classifyWB (line : String) (knownTotal : Nat) : Signal :=
  let s := line.data.map lowerChar
  match searchAt matchP1At s with
  | some n => .TotalPages n
  | none =>
  match searchAtWB matchP2At none s with
  | some n => .CurrentPage (if 0 < knownTotal then min n knownTotal else n)
  | none => .NoSignal

/-! ### Claim C4 — the line classifier -/

/-- Claim C4, counterexample: the claim says the `"Page N"` rule matches at
word boundaries.  On the line `rampage 3 Page 5` the word-boundary reading
must skip the occurrence inside `rampage` and classify `CurrentPage 5`, but
the source pattern `Page (\d+)` has no boundary anchor and `re.search` takes
the leftmost plain-substring occurrence, classifying `CurrentPage 3`. -/
theorem c4_counterexample :
    classify ("rampage 3 Page 5") 0 = .CurrentPage 3 ∧
    classifyWB ("rampage 3 Page 5") 0 = .CurrentPage 5 ∧
    Signal.CurrentPage 3 ≠ Signal.CurrentPage 5 := by
  refine ⟨by decide, by decide, by decide⟩

/-- Claim C4, amended: the classifier applies the pattern rules in priority
order and returns the first match; `"Processing pages 1 through 42"` with
knownTotal 0 classifies as `TotalPages 42`, `"Page 7"` with knownTotal 42 as
`CurrentPage 7`, and `"Loading font cache"` as `NoSignal`; the `"Page N"`
rule matches case-insensitively anywhere in the line (leftmost occurrence,
no word-boundary requirement) and clamps with
`min N knownTotal` when a total is known. -/
theorem c4_classifier_vectors :
    classify ("Processing pages 1 through 42") 0 = .TotalPages 42 ∧
    classify ("Page 7") 42 = .CurrentPage 7 ∧
    classify ("Loading font cache") 0 = .NoSignal ∧
    (∀ knownTotal : Nat, classify ("Page 7") knownTotal =
      .CurrentPage (if 0 < knownTotal then min 7 knownTotal else 7)) := by
  refine ⟨by decide, by decide, by decide, ?_⟩
  intro knownTotal
  have h : matchPatterns ("Page 7") = .pageNum 7 := by decide
  unfold classify
  rw [h]

/-! ### Claim C7 — monotone acceptance of total-pages signals -/

/-- Claim C7: a total-pages match updates `total_pages` only when the
captured value is strictly greater than the known total (`if page_num >
self.total_pages`), and consequently `total_pages` never decreases across
any line. -/
theorem c7_total_monotone :
    (∀ (st : JobState) (line : String),
      st.total_pages ≤ ((parse_progress_line st line).1).total_pages) ∧
    (∀ (st : JobState) (line : String) (n : Nat),
      matchPatterns line = RawSignal.totalPages n →
      ((parse_progress_line st line).1).total_pages =
        if st.total_pages < n then n else st.total_pages) := by
  constructor
  · intro st line
    unfold parse_progress_line
    cases h : matchPatterns line with
    | totalPages n =>
        by_cases hlt : st.total_pages < n
        · simp [hlt]
          omega
        · simp [hlt]
    | pageNum n => simp
    | noSignal => simp
  · intro st line n h
    unfold parse_progress_line
    rw [h]
    by_cases hlt : st.total_pages < n
    · simp [hlt]
    · simp [hlt]

/-- Witness for C7 at a concrete input: the literal total-pages line raises a
zero total to 42. -/
theorem c7_witness :
    matchPatterns ("Processing pages 1 through 42") = RawSignal.totalPages 42 ∧
    ((parse_progress_line ⟨0, 0⟩ ("Processing pages 1 through 42")).1).total_pages =
      if (0 : Nat) < 42 then 42 else 0 :=
  ⟨by decide, c7_total_monotone.2 ⟨0, 0⟩ ("Processing pages 1 through 42") 42 (by decide)⟩


/-! ### Helper lemmas about emitted progress signals -/

/-- Every emission of `parse_progress_line` carries a positive total: the
total-pages branch emits `(0, n)` under the guard `total_pages < n`, and the
current-page branch emits only under the guard `0 < total_pages`. -/
lemma parse_snd_pos (st : JobState) (line : String) :
    ∀ p ∈ (parse_progress_line st line).2, 0 < p.2 := by
  unfold parse_progress_line
  cases h : matchPatterns line with
  | totalPages n =>
      by_cases hlt : st.total_pages < n
      · simp [hlt]
        omega
      · simp [hlt]
  | pageNum n =>
      by_cases hpos : 0 < st.total_pages
      · simp [hpos]
      · simp [hpos]
  | noSignal => simp

lemma processLines_snd_pos (lines : List String) :
    ∀ (st : JobState), ∀ p ∈ (processLines st lines).2, 0 < p.2 := by
  induction lines with
  | nil => intro st p hp; simp [processLines] at hp
  | cons l ls ih =>
      intro st p hp
      unfold processLines at hp
      rcases List.mem_append.mp hp with h1 | h2
      · exact parse_snd_pos st l p h1
      · exact ih _ p h2

lemma initEventsOf_pos (env : RunEnv) (c t : Nat)
    (h : Event.progress c t ∈ initEventsOf env) : 0 < t := by
  unfold initEventsOf at h
  by_cases hpc : 0 < env.pageCount
  · simp [hpc] at h
    omega
  · simp [hpc] at h

lemma lineEventsOf_pos (env : RunEnv) (c t : Nat)
    (h : Event.progress c t ∈ lineEventsOf env) : 0 < t := by
  unfold lineEventsOf at h
  rcases List.mem_map.mp h with ⟨p, hp, he⟩
  injection he with h1 h2
  subst h2
  exact processLines_snd_pos _ _ p hp

lemma peventsOf_pos (env : RunEnv) (c t : Nat)
    (h : Event.progress c t ∈ peventsOf env) : 0 < t := by
  unfold peventsOf at h
  rcases List.mem_append.mp h with h | h
  · exact initEventsOf_pos env c t h
  · exact lineEventsOf_pos env c t h

lemma finalEventsOf_pos (env : RunEnv) (c t : Nat)
    (h : Event.progress c t ∈ finalEventsOf env) : 0 < t := by
  unfold finalEventsOf at h
  by_cases hT : 0 < finalTotal env
  · simp [hT] at h
    omega
  · simp [hT] at h

/-! ### Claim C10 — no progress event with an unknown total -/

/-- Claim C10: every `progress` signal in any run's trace carries a positive
`total_pages` (all four emit sites in the source are guarded by
`total_pages > 0`, and an accepted total-pages revision is strictly
positive); and while the total is unknown a current-page match updates
`current_page` but emits nothing. -/
theorem c10_no_unknown_total :
    (∀ (env : RunEnv) (c t : Nat),
      Event.progress c t ∈ runTrace env → 0 < t) ∧
    (∀ (st : JobState) (line : String) (n : Nat), st.total_pages = 0 →
      matchPatterns line = RawSignal.pageNum n →
      parse_progress_line st line = ({ st with current_page := n }, [])) := by
  constructor
  · intro env c t h
    unfold runTrace at h
    by_cases hs : env.stageOk = true
    · rw [if_pos hs] at h
      by_cases hl : env.launchOk = true
      · rw [if_pos hl] at h
        by_cases hr : readFails env = true
        · rw [if_pos hr] at h
          rcases List.mem_append.mp h with h | h
          · exact peventsOf_pos env c t h
          · simp at h
        · rw [if_neg hr] at h
          by_cases he : env.exitCode = 0
          · rw [if_neg (fun hc => hc he)] at h
            by_cases ho : env.outExists = false
            · rw [if_pos ho] at h
              rcases List.mem_append.mp h with h | h
              · exact peventsOf_pos env c t h
              · simp at h
            · rw [if_neg ho] at h
              by_cases hz : env.outSize = 0
              · rw [if_pos hz] at h
                rcases List.mem_append.mp h with h | h
                · exact peventsOf_pos env c t h
                · simp at h
              · rw [if_neg hz] at h
                rcases List.mem_append.mp h with h | h
                · exact peventsOf_pos env c t h
                · rcases List.mem_append.mp h with h | h
                  · exact finalEventsOf_pos env c t h
                  · simp at h
          · rw [if_pos he] at h
            rcases List.mem_append.mp h with h | h
            · exact peventsOf_pos env c t h
            · simp at h
      · rw [if_neg hl] at h
        rcases List.mem_append.mp h with h | h
        · exact initEventsOf_pos env c t h
        · simp at h
    · rw [if_neg hs] at h
      rcases List.mem_append.mp h with h | h
      · exact initEventsOf_pos env c t h
      · simp at h
  · intro st line n h0 hm
    unfold parse_progress_line
    rw [hm]
    simp [h0]

/-- A run environment on the success path, used by concrete witnesses. -/
def envOk : RunEnv :=
  { pageCount := 10, stageOk := true, launchOk := true,
    lines := [("Page 7")], readFailsAt := none, exitCode := 0,
    outExists := true, outSize := 1, termRaises := false,
    removeRaises := false }

/-- Witness for C10: a concrete run whose first progress event has the
positive total 10, and a current-page line under an unknown total that emits
nothing. -/
theorem c10_witness :
    (0 : Nat) < 10 ∧
    parse_progress_line ⟨0, 0⟩ ("Page 3") =
      ({ total_pages := 0, current_page := 3 }, []) :=
  ⟨c10_no_unknown_total.1 envOk 0 10 (by decide),
   c10_no_unknown_total.2 ⟨0, 0⟩ ("Page 3") 3 rfl (by decide)⟩

/-! ### Helper lemmas: the pre-terminal events are all progress events -/

lemma initEventsOf_progress (env : RunEnv) :
    ∀ e ∈ initEventsOf env, isProgress e = true := by
  unfold initEventsOf
  by_cases hpc : 0 < env.pageCount
  · simp [hpc, isProgress]
  · simp [hpc]

lemma lineEventsOf_progress (env : RunEnv) :
    ∀ e ∈ lineEventsOf env, isProgress e = true := by
  unfold lineEventsOf
  intro e he
  rcases List.mem_map.mp he with ⟨p, _, hpe⟩
  rw [← hpe]
  rfl

lemma peventsOf_progress (env : RunEnv) :
    ∀ e ∈ peventsOf env, isProgress e = true := by
  unfold peventsOf
  intro e he
  rcases List.mem_append.mp he with h | h
  · exact initEventsOf_progress env e h
  · exact lineEventsOf_progress env e h

lemma finalEventsOf_progress (env : RunEnv) :
    ∀ e ∈ finalEventsOf env, isProgress e = true := by
  unfold finalEventsOf
  by_cases hT : 0 < finalTotal env
  · simp [hT, isProgress]
  · simp [hT]

/-! ### Claim C5 — event ordering within one run -/

/-- The `current_page` components of the progress events of a trace, in
emission order. -/
def currents (t : List Event) : List Nat :=
  t.filterMap fun e =>
    match e with
    | .progress c _ => some c
    | .finished _ => none

/-- A run environment whose output lines report page 7 and then page 3:
the source clamps and re-emits whatever page number arrives, so the emitted
`current_page` sequence 0, 7, 3, 10 is not non-decreasing. -/
def envC5 : RunEnv :=
  { pageCount := 10, stageOk := true, launchOk := true,
    lines := [("Page 7"), ("Page 3")], readFailsAt := none, exitCode := 0,
    outExists := true, outSize := 1, termRaises := false,
    removeRaises := false }

/-- Claim C5, counterexample: the claim asserts the emitted `currentPage`
values are non-decreasing within a run, but the run over `envC5` emits
0, 7, 3, 10. -/
theorem c5_counterexample :
    currents (runTrace envC5) = [0, 7, 3, 10] ∧
    ¬ List.Chain' (fun a b : Nat => a ≤ b) (currents (runTrace envC5)) := by
  have h : currents (runTrace envC5) = [0, 7, 3, 10] := by decide
  refine ⟨h, ?_⟩
  rw [h]
  intro hch
  rcases List.chain'_cons.mp hch with ⟨_, hch2⟩
  rcases List.chain'_cons.mp hch2 with ⟨h73, _⟩
  omega

/-- Claim C5, amended: the terminal `finished` signal is emitted exactly
once, after every progress event of the run (every trace is a list of
progress events followed by a single terminal event); the `currentPage`
values follow the parsed page numbers in arrival order and need not be
non-decreasing. -/
theorem c5_terminal_result_last (env : RunEnv) :
    ∃ (ps : List Event) (r : JobResult),
      runTrace env = ps ++ [Event.finished r] ∧
      ∀ e ∈ ps, isProgress e = true := by
  unfold runTrace
  by_cases hs : env.stageOk = true
  · rw [if_pos hs]
    by_cases hl : env.launchOk = true
    · rw [if_pos hl]
      by_cases hr : readFails env = true
      · rw [if_pos hr]
        exact ⟨peventsOf env, .failedRead, rfl, peventsOf_progress env⟩
      · rw [if_neg hr]
        by_cases he : env.exitCode = 0
        · rw [if_neg (fun hc => hc he)]
          by_cases ho : env.outExists = false
          · rw [if_pos ho]
            exact ⟨peventsOf env, .failedMissing, rfl, peventsOf_progress env⟩
          · rw [if_neg ho]
            by_cases hz : env.outSize = 0
            · rw [if_pos hz]
              exact ⟨peventsOf env, .failedEmpty, rfl, peventsOf_progress env⟩
            · rw [if_neg hz]
              refine ⟨peventsOf env ++ finalEventsOf env, .success, ?_, ?_⟩
              · rw [List.append_assoc]
              · intro e he'
                rcases List.mem_append.mp he' with h | h
                · exact peventsOf_progress env e h
                · exact finalEventsOf_progress env e h
        · rw [if_pos he]
          exact ⟨peventsOf env, .failedExit env.exitCode, rfl,
            peventsOf_progress env⟩
    · rw [if_neg hl]
      exact ⟨initEventsOf env, .failedLaunch, rfl, initEventsOf_progress env⟩
  · rw [if_neg hs]
    exact ⟨initEventsOf env, .failedStaging, rfl, initEventsOf_progress env⟩

/-! ### Claim C6 — exit evaluation order -/

/-- Claim C6: with staging and launch successful and the output stream read
to completion, the exit evaluation checks in order: non-zero exit code,
missing output file, empty output file, and otherwise succeeds; on success a
final progress event with `current = total` immediately precedes the
terminal event whenever the total was ever known (the total never decreases,
so ever-known is the same as known at the end). -/
theorem c6_exit_evaluation (env : RunEnv) (hs : env.stageOk = true)
    (hl : env.launchOk = true) (hr : env.readFailsAt = none) :
    (env.exitCode ≠ 0 →
      (runTrace env).getLast? =
        some (Event.finished (.failedExit env.exitCode))) ∧
    (env.exitCode = 0 → env.outExists = false →
      (runTrace env).getLast? = some (Event.finished .failedMissing)) ∧
    (env.exitCode = 0 → env.outExists = true → env.outSize = 0 →
      (runTrace env).getLast? = some (Event.finished .failedEmpty)) ∧
    (env.exitCode = 0 → env.outExists = true → 0 < env.outSize →
      (runTrace env).getLast? = some (Event.finished .success) ∧
      (0 < finalTotal env →
        [Event.progress (finalTotal env) (finalTotal env),
         Event.finished .success] <:+ runTrace env)) := by
  have hrf : ¬ readFails env = true := by simp [readFails, hr]
  refine ⟨?_, ?_, ?_, ?_⟩
  · intro hne
    unfold runTrace
    rw [if_pos hs, if_pos hl, if_neg hrf, if_pos hne]
    exact List.getLast?_concat _
  · intro he ho
    unfold runTrace
    rw [if_pos hs, if_pos hl, if_neg hrf, if_neg (fun hc => hc he), if_pos ho]
    exact List.getLast?_concat _
  · intro he ho hz
    unfold runTrace
    rw [if_pos hs, if_pos hl, if_neg hrf, if_neg (fun hc => hc he),
      if_neg (by simp [ho]), if_pos hz]
    exact List.getLast?_concat _
  · intro he ho hp
    have hz : ¬ env.outSize = 0 := by omega
    constructor
    · unfold runTrace
      rw [if_pos hs, if_pos hl, if_neg hrf, if_neg (fun hc => hc he),
        if_neg (by simp [ho]), if_neg hz, ← List.append_assoc]
      exact List.getLast?_concat _
    · intro hT
      unfold runTrace
      rw [if_pos hs, if_pos hl, if_neg hrf, if_neg (fun hc => hc he),
        if_neg (by simp [ho]), if_neg hz]
      have hfe : finalEventsOf env =
          [Event.progress (finalTotal env) (finalTotal env)] := by
        unfold finalEventsOf
        rw [if_pos hT]
      rw [hfe]
      exact List.suffix_append _ _

/-- Witness for C6 at a concrete environment on the success path: the trace
ends with the final full-progress event followed by the terminal success. -/
theorem c6_witness :
    envOk.stageOk = true ∧
    (runTrace envOk).getLast? = some (Event.finished .success) ∧
    [Event.progress (finalTotal envOk) (finalTotal envOk),
     Event.finished .success] <:+ runTrace envOk := by
  have h := (c6_exit_evaluation envOk rfl rfl rfl).2.2.2 rfl rfl (by decide)
  exact ⟨rfl, h.1, h.2 (by decide)⟩

/-! ### Claim C9 — teardown on every exit path -/

/-- Claim C9: on every exit path the teardown of the `finally` block runs:
the child process is terminated exactly when it was launched and is still
alive (an exception escaped the read loop; on all other paths it has already
exited), removal of the staged temporary input is attempted exactly when
staging created it, succeeding unless the removal itself raises; and the
emitted event stream — progress events and the terminal result — does not
depend on whether either cleanup action raises. -/
theorem c9_teardown_every_path (env : RunEnv) :
    (runTeardown env).procTerminated =
      (env.stageOk && env.launchOk && readFails env) ∧
    (runTeardown env).tempRemoveTried = env.stageOk ∧
    (runTeardown env).tempRemoved = (env.stageOk && !env.removeRaises) ∧
    (∀ b1 b2 : Bool,
      runTrace { env with termRaises := b1, removeRaises := b2 } =
        runTrace env) := by
  refine ⟨?_, ?_, ?_, fun b1 b2 => rfl⟩
  · by_cases hs : env.stageOk = true <;> by_cases hl : env.launchOk = true <;>
      simp [runTeardown, teardownFor, hs, hl, Bool.not_eq_true] at *
  · by_cases hs : env.stageOk = true <;> by_cases hl : env.launchOk = true <;>
      simp [runTeardown, teardownFor, hs, hl, Bool.not_eq_true] at *
  · by_cases hs : env.stageOk = true <;> by_cases hl : env.launchOk = true <;>
      simp [runTeardown, teardownFor, hs, hl, Bool.not_eq_true] at *

/-! ### Claims C1-C3, C8 — the size-bounded splitter

Concrete serialization oracles used as failing inputs.  Sizes depend only on
the set of pages written, as `os.path.getsize` of the written part does. -/

/-- A 3-page document: all three pages together serialize to 8 MB, any two
pages to 6 MB, one page to 2 MB. -/
def szC1 : List Nat → Nat := fun ps =>
  if 3 ≤ ps.length then 8388608 else if ps.length = 2 then 6291456 else 2097152

/-- A 2-page document: both pages together serialize to 6 MB, one page to
1 MB. -/
def szC2 : List Nat → Nat := fun ps =>
  if 2 ≤ ps.length then 6291456 else 1048576

/-- A 2-page document whose first page alone serializes to 6 MB. -/
def szC3 : List Nat → Nat := fun ps => 6291456 * ps.length

lemma c1_step (n : Nat) (acc : List SplitPart) :
    splitLoop szC1 3 (n + 1) 0 acc =
      splitLoop szC1 3 n 0 (acc ++ [⟨[0, 1], 6291456⟩]) := rfl

lemma c1_never_completes (fuel : Nat) :
    ∀ acc : List SplitPart, (splitLoop szC1 3 fuel 0 acc).2 = false := by
  induction fuel with
  | zero => intro acc; rfl
  | succ n ih =>
      intro acc
      rw [c1_step]
      exact ih _

/-- Claim C1 fails on the code: on the 3-page document `szC1` the splitter
emits the part holding pages 1-2 (indices 0,1) with serialized size 6 MB,
strictly over the 5 MB hard budget, even though it has more than one page —
the source reseals once without the last page but never rechecks the
resealed size before shipping the part; and because it also resets
`current_part` back to the start of the part, the loop never exits
(`completed = false` for every fuel), re-emitting the same oversized part
forever. -/
theorem c1_oversized_multipage_part :
    (∀ fuel : Nat, (splitLoop szC1 3 fuel 0 []).2 = false) ∧
    split_pdf szC1 3 1 = .parts [⟨[0, 1], 6291456⟩] false ∧
    5242880 < 6291456 ∧ 1 < ([0, 1] : List Nat).length := by
  refine ⟨fun fuel => c1_never_completes fuel [], by decide, by decide, by decide⟩

lemma c2_step (n : Nat) (acc : List SplitPart) :
    splitLoop szC2 2 (n + 1) 0 acc =
      splitLoop szC2 2 n 0 (acc ++ [⟨[0], 1048576⟩]) := rfl

lemma c2_never_completes (fuel : Nat) :
    ∀ acc : List SplitPart, (splitLoop szC2 2 fuel 0 acc).2 = false := by
  induction fuel with
  | zero => intro acc; rfl
  | succ n ih =>
      intro acc
      rw [c2_step]
      exact ih _

/-- Claim C2 fails on the code: on the 2-page document `szC2` the backoff
branch resets `current_part` to the start of the part after shipping it, so
the loop never terminates and every emitted part holds page 1 (index 0)
only: the emitted page ranges overlap (page 1 appears in every part) and
never cover page 2. -/
theorem c2_parts_not_a_partition :
    (∀ fuel : Nat, (splitLoop szC2 2 fuel 0 []).2 = false) ∧
    split_pdf szC2 2 2 = .parts [⟨[0], 1048576⟩, ⟨[0], 1048576⟩] false ∧
    coveredPages [⟨[0], 1048576⟩, ⟨[0], 1048576⟩] = [0, 0] := by
  refine ⟨fun fuel => c2_never_completes fuel [], by decide, by decide⟩

/-- Claim C3 fails on the code: `part_size` is initialized to 0 and never
assigned inside the accumulation loop, and nothing is serialized during
accumulation, so the loop consumes every remaining page no matter what the
pages serialize to — on the document `szC3`, whose first page alone
serializes to 6 MB (over the 4.5 MB stop margin), the first part still
accumulates both pages. -/
theorem c3_margin_never_checked :
    addPagesLoop 2 2 0 0 0 [] = ([0, 1], 2, 2) ∧
    4718592 < szC3 [0] ∧
    split_pdf szC3 2 1 = .parts [⟨[0], 6291456⟩] false := by
  refine ⟨by decide, by decide, by decide⟩

/-- Claim C8: a document with fewer than 2 pages is refused with the
insufficient-pages outcome before any part is built or written. -/
theorem c8_insufficient_pages (sz : List Nat → Nat) (total_pages fuel : Nat)
    (h : total_pages < 2) :
    split_pdf sz total_pages fuel = .insufficientPages := by
  unfold split_pdf
  rw [if_pos h]

/-- Witness for C8 on a concrete 1-page document. -/
theorem c8_witness :
    (1 : Nat) < 2 ∧ split_pdf szC2 1 5 = .insufficientPages :=
  ⟨by decide, c8_insufficient_pages szC2 1 5 (by decide)⟩
